import Mathlib

/-!
Verification of the binance-history acquisition engine.

This file gives a shallow embedding, in Lean 4, of the core data model and
operations of the repository: the job-queue service (queue.service.ts), the
Binance client with its weight tracker and retry loop (BinanceService), the
gap analyzer of the download processor (calculateDownloadRanges), the batched
candle persister (HistoryService.saveCandles), and the metadata updater
(HistoryService.updateSymbolMetadata).

Conventions of the embedding:
  - JavaScript Date values and epoch-millisecond numbers are both embedded
    as Int (milliseconds since the epoch).
  - JavaScript floating point arithmetic on progress percentages and range
    weights is embedded as exact rational arithmetic (Rat); Math.round,
    Math.ceil and Math.min are embedded as jsRound, jsCeil and min.
  - Asynchronous storage and network collaborators are embedded as explicit
    oracle parameters; a fallible call returns Except.
  - Loops whose termination depends on external data are embedded with an
    explicit fuel parameter.
-/

set_option autoImplicit false

namespace BinanceHistory

/-- Timeframe enumeration (common/enums/timeframe.enum.ts): the six sampling
intervals supported by the service. -/
inductive Timeframe where
  | fiveMin
  | fifteenMin
  | thirtyMin
  | oneHour
  | twoHour
  | fourHour
deriving Repr, DecidableEq

/-- Interval length of a timeframe in milliseconds, as in getIntervalInMs
(identical tables in BinanceService, HistoryService and the download
processors). -/
def getIntervalInMs : Timeframe → Int
  | .fiveMin => 5 * 60 * 1000
  | .fifteenMin => 15 * 60 * 1000
  | .thirtyMin => 30 * 60 * 1000
  | .oneHour => 60 * 60 * 1000
  | .twoHour => 2 * 60 * 60 * 1000
  | .fourHour => 4 * 60 * 60 * 1000

theorem getIntervalInMs_pos (tf : Timeframe) : 0 < getIntervalInMs tf := by
  cases tf <;> decide

/-- Job lifecycle status (common/enums/job-status.enum.ts). -/
inductive JobStatus where
  | pending
  | running
  | completed
  | failed
  | cancelled
deriving Repr, DecidableEq

/-- Terminal statuses of the download-job state machine. -/
def JobStatus.isTerminal : JobStatus → Bool
  | .completed => true
  | .failed => true
  | .cancelled => true
  | _ => false

/-- Download-job record, following the mongoose schema in
download-job.schema.ts.  Date fields are epoch milliseconds. -/
structure DownloadJob where
  symbol : String
  timeframe : Timeframe
  startDate : Int
  endDate : Int
  status : JobStatus
  progress : Int
  processedCandles : Int
  totalCandles : Int
  startedAt : Option Int
  completedAt : Option Int
  error : Option String
  lastProgressUpdate : Option Int
deriving Repr, DecidableEq

/-- QueueService.cancelJob (queue.service.ts) restricted to a job that was
found in the database: a COMPLETED job makes the call throw, any other job is
set to CANCELLED (the removal of the underlying Bull queue entry does not
touch the job record and is not modelled). -/
def cancelJob (job : DownloadJob) : Except String DownloadJob :=
  if job.status = JobStatus.completed then
    Except.error "Cannot cancel completed job"
  else
    Except.ok { job with status := JobStatus.cancelled }

/-- QueueService.markJobAsStarted: unconditional findByIdAndUpdate setting
status RUNNING and startedAt. -/
def markJobAsStarted (job : DownloadJob) (now : Int) : DownloadJob :=
  { job with status := JobStatus.running, startedAt := some now }

/-- QueueService.markJobAsFailed: unconditional findByIdAndUpdate setting
status FAILED, the error message and completedAt. -/
def markJobAsFailed (job : DownloadJob) (err : String) (now : Int) : DownloadJob :=
  { job with status := JobStatus.failed, error := some err, completedAt := some now }

/-- QueueService.markJobAsCompleted: unconditional findByIdAndUpdate setting
status COMPLETED, completedAt, progress 100 and the final candle count. -/
def markJobAsCompleted (job : DownloadJob) (totalCandles : Int) (now : Int) : DownloadJob :=
  { job with
    status := JobStatus.completed
    completedAt := some now
    progress := 100
    totalCandles := totalCandles }

/-- QueueService.updateJobProgress: findByIdAndUpdate writing progress,
processedCandles and lastProgressUpdate; the status field is not part of the
update document. -/
def updateJobProgress (job : DownloadJob) (progress : Int) (processedCandles : Int)
    (now : Int) : DownloadJob :=
  { job with
    progress := progress
    processedCandles := processedCandles
    lastProgressUpdate := some now }

/-! ## BinanceService: configuration, weight tracker, retry policy, fetch loop -/

/-- Configuration read in the BinanceService constructor:
weightLimit from BINANCE_WEIGHT_LIMIT (default 6000) and weightWindow from
BINANCE_WEIGHT_WINDOW (default 60000 milliseconds). -/
structure BinanceConfig where
  weightLimit : Int
  weightWindow : Int
deriving Repr, DecidableEq

/-- Default configuration values of the BinanceService constructor. -/
def defaultBinanceConfig : BinanceConfig := { weightLimit := 6000, weightWindow := 60000 }

/-- Mutable weight-tracking state of BinanceService: currentWeight and
weightResetTime. -/
structure WeightState where
  currentWeight : Int
  weightResetTime : Int
deriving Repr, DecidableEq

/-- Result of one checkWeightLimit call: the state afterwards and, when the
call slept, the length of the sleep in milliseconds. -/
structure CheckWeightResult where
  st : WeightState
  waited : Option Int
deriving Repr, DecidableEq

/-- Window-reset prelude shared by checkWeightLimit and
updateWeightFromHeaders: if now minus weightResetTime is at least
weightWindow, the counter resets to 0 and the window start advances to now. -/
def resetIfWindowElapsed (cfg : BinanceConfig) (st : WeightState) (now : Int) : WeightState :=
  if now - st.weightResetTime ≥ cfg.weightWindow then
    { currentWeight := 0, weightResetTime := now }
  else st

/-- BinanceService.checkWeightLimit.  After the window-reset check, when
currentWeight plus requiredWeight reaches weightLimit the caller sleeps for
the remainder of the window, then the counter is reset to 0 and the window
start becomes the wall-clock time after the sleep (now2).  The counter is
never increased by requiredWeight. -/
def checkWeightLimit (cfg : BinanceConfig) (st : WeightState) (now now2 : Int)
    (requiredWeight : Int) : CheckWeightResult :=
  let st1 := resetIfWindowElapsed cfg st now
  if st1.currentWeight + requiredWeight ≥ cfg.weightLimit then
    { st := { currentWeight := 0, weightResetTime := now2 }
      waited := some (cfg.weightWindow - (now - st1.weightResetTime)) }
  else
    { st := st1, waited := none }

/-- BinanceService.updateWeightFromHeaders: after the window-reset check the
counter is overwritten with the authoritative used weight reported by the
x-mbx-used-weight-1m response header. -/
def updateWeightFromHeaders (cfg : BinanceConfig) (st : WeightState) (usedWeight now : Int) :
    WeightState :=
  let st1 := resetIfWindowElapsed cfg st now
  { currentWeight := usedWeight, weightResetTime := st1.weightResetTime }

/-- Shape of a JavaScript error value as inspected by the retry code:
responseStatus embeds error.response?.status (present on a raw axios HTTP
error), code embeds error.code (present on a Node network error), status
embeds error.status (present on a NestJS HttpException). -/
structure JsError where
  responseStatus : Option Int
  code : Option String
  status : Option Int
deriving Repr, DecidableEq

/-- HttpException raised by the axios response interceptor of BinanceService
on HTTP 429: its response field is the plain string so its
response.status lookup yields undefined, while its status field is 429. -/
def rateLimitHttpException : JsError :=
  { responseStatus := none, code := none, status := some 429 }

/-- Error path of the axios response interceptor installed in the
BinanceService constructor: a response with HTTP status 429 is replaced by
rateLimitHttpException; every other error is rethrown unchanged. -/
def interceptorTransform (e : JsError) : JsError :=
  if e.responseStatus = some 429 then rateLimitHttpException else e

/-- Retry classification of makeRequestWithRetry: error.response?.status
equal to 429. -/
def isRateLimitForRetry (e : JsError) : Bool :=
  e.responseStatus = some 429

/-- Retry classification of makeRequestWithRetry: error.code equal to
ECONNRESET or ETIMEDOUT. -/
def isTransientNetwork (e : JsError) : Bool :=
  e.code = some "ECONNRESET" || e.code = some "ETIMEDOUT"

/-- Backoff used by makeRequestWithRetry on a rate-limit classification:
baseDelay times 2 to the attempt, plus a fixed 60000 milliseconds. -/
def retryDelayRateLimit (baseDelay : Int) (attempt : Nat) : Int :=
  baseDelay * 2 ^ attempt + 60000

/-- Backoff used by makeRequestWithRetry on a transient-network
classification: baseDelay times 2 to the attempt. -/
def retryDelayNetwork (baseDelay : Int) (attempt : Nat) : Int :=
  baseDelay * 2 ^ attempt

/-- Outcome of one attempt of the wrapped request function: a value or a
thrown error. -/
inductive ReqOutcome (α : Type) where
  | ok (v : α)
  | fail (e : JsError)

/-- Result of makeRequestWithRetry: the value or final error, the list of
backoff sleeps performed, and the number of attempts that ran. -/
structure RetryResult (α : Type) where
  result : Except JsError α
  delays : List Int
  attemptsUsed : Nat

/-- Loop body of makeRequestWithRetry.  attempt is the 1-based attempt
counter; remaining counts how many further attempts the cap still allows
(remaining = 0 embeds attempt === maxRetries).  On an error with remaining
attempts, a rate-limit classification sleeps the penalized backoff and a
transient-network classification sleeps the exponential backoff before the
next attempt; any other error is rethrown at once. -/
def makeRequestWithRetryGo {α : Type} (outcomes : Nat → ReqOutcome α) (baseDelay : Int) :
    Nat → Nat → List Int → RetryResult α
  | attempt, 0, delays =>
    match outcomes attempt with
    | .ok v => { result := .ok v, delays := delays, attemptsUsed := attempt }
    | .fail e => { result := .error e, delays := delays, attemptsUsed := attempt }
  | attempt, remaining + 1, delays =>
    match outcomes attempt with
    | .ok v => { result := .ok v, delays := delays, attemptsUsed := attempt }
    | .fail e =>
      if isRateLimitForRetry e then
        makeRequestWithRetryGo outcomes baseDelay (attempt + 1) remaining
          (delays ++ [retryDelayRateLimit baseDelay attempt])
      else if isTransientNetwork e then
        makeRequestWithRetryGo outcomes baseDelay (attempt + 1) remaining
          (delays ++ [retryDelayNetwork baseDelay attempt])
      else
        { result := .error e, delays := delays, attemptsUsed := attempt }

/-- BinanceService.makeRequestWithRetry with its default parameters
maxRetries = 3 and baseDelay = 1000 left explicit.  outcomes n is the result
of the n-th execution of the wrapped request function. -/
def makeRequestWithRetry {α : Type} (outcomes : Nat → ReqOutcome α)
    (maxRetries : Nat) (baseDelay : Int) : RetryResult α :=
  makeRequestWithRetryGo outcomes baseDelay 1 (maxRetries - 1) []

/-- Kline record as mapped from the 12-field rows of the Binance klines
endpoint (BinanceKlineData in binance.interface.ts). -/
structure Kline where
  openTime : Int
  open_ : String
  high : String
  low : String
  close : String
  volume : String
  closeTime : Int
  quoteAssetVolume : String
  numberOfTrades : Int
  takerBuyBaseAssetVolume : String
  takerBuyQuoteAssetVolume : String
deriving Repr, DecidableEq

/-- JavaScript Math.round on an exact rational: floor of q + 1/2 (halves
round toward positive infinity, matching Math.round). -/
def jsRound (q : ℚ) : Int := ⌊q + 1 / 2⌋

/-- JavaScript Math.ceil on an exact rational. -/
def jsCeil (q : ℚ) : Int := ⌈q⌉

/-- Progress percentage passed to onProgress by getHistoricalData after a
page: Math.round of Math.min(100, count / totalEstimatedCandles * 100). -/
def fetchProgressPct (totalEstimatedCandles : Int) (count : Nat) : Int :=
  jsRound (min 100 ((count : ℚ) / (totalEstimatedCandles : ℚ) * 100))

/-- Progress callback invocation recorded by the fetch loop: the rounded
percentage and the cumulative candle count passed to onProgress. -/
structure FetchEvent where
  progress : Int
  processedCandles : Nat
deriving Repr, DecidableEq

/-- Outcome of the getHistoricalData loop: normal return with the collected
klines, propagation of an error, or fuel exhaustion (the loop was still
running after the given number of iterations). -/
inductive FetchFinal where
  | ok (klines : List Kline)
  | err (e : JsError)
  | fuelExhausted (soFar : List Kline)
deriving Repr, DecidableEq

/-- While-loop of BinanceService.getHistoricalData.  getKlinesAt models
this.getKlines at a given startTime (a makeRequestWithRetry result).  An
empty page breaks the loop; a non-empty page is appended, one progress
callback fires, and the cursor advances to the last closeTime plus 1.  A
caught error with status 429 sleeps one minute and retries the same cursor;
any other error is rethrown. -/
def getHistoricalDataGo (getKlinesAt : Int → Except JsError (List Kline))
    (finalEndTime : Int) (totalEstimatedCandles : Int) :
    Nat → Int → List Kline → FetchFinal × List FetchEvent
  | 0, _, acc => (.fuelExhausted acc, [])
  | fuel + 1, currentStartTime, acc =>
    if currentStartTime < finalEndTime then
      match getKlinesAt currentStartTime with
      | .ok [] => (.ok acc, [])
      | .ok (k :: ks) =>
        let acc2 := acc ++ (k :: ks)
        let ev : FetchEvent :=
          ⟨fetchProgressPct totalEstimatedCandles acc2.length, acc2.length⟩
        let next := ((k :: ks).getLast (by simp)).closeTime + 1
        let r := getHistoricalDataGo getKlinesAt finalEndTime totalEstimatedCandles fuel next acc2
        (r.1, ev :: r.2)
      | .error e =>
        if e.status = some 429 then
          getHistoricalDataGo getKlinesAt finalEndTime totalEstimatedCandles fuel
            currentStartTime acc
        else (.err e, [])
    else (.ok acc, [])

/-- BinanceService.getHistoricalData: estimates the total candle count as
Math.ceil of the range length over the interval length, then drives the page
loop from startTime. -/
def getHistoricalData (getKlinesAt : Int → Except JsError (List Kline)) (tf : Timeframe)
    (startTime endTime : Int) (fuel : Nat) : FetchFinal × List FetchEvent :=
  let intervalMs := getIntervalInMs tf
  let totalEstimatedCandles := jsCeil (((endTime - startTime : Int) : ℚ) / (intervalMs : ℚ))
  getHistoricalDataGo getKlinesAt endTime totalEstimatedCandles fuel startTime []

/-! ## GapAnalyzer: calculateDownloadRanges of the download processor -/

/-- Range type of a DownloadRange in the processor source: before, after or
gap. -/
inductive RangeType where
  | before
  | after
  | gap
deriving Repr, DecidableEq

/-- DownloadRange produced by calculateDownloadRanges: bounds in epoch
milliseconds, a type and a description string. -/
structure DownloadRange where
  start : Int
  end_ : Int
  type : RangeType
  description : String
deriving Repr, DecidableEq

/-- Origin tags of the GapRange value in the specification.  The source
distinguishes the verification range from an interior gap only through its
description string; this map recovers the four spec tags from the pair of
type and description. -/
inductive GapOrigin where
  | beforeExisting
  | interiorGap
  | afterExisting
  | verificationRedownload
deriving Repr, DecidableEq

/-- Origin tag of a DownloadRange: type before maps to before-existing,
after to after-existing, and gap to verification-redownload exactly when the
description is the verification string, interior-gap otherwise. -/
def DownloadRange.origin (r : DownloadRange) : GapOrigin :=
  match r.type with
  | .before => .beforeExisting
  | .after => .afterExisting
  | .gap =>
    if r.description = "verification failed - redownloading range" then .verificationRedownload
    else .interiorGap

/-- Stored extent of a (symbol, timeframe) pair as returned by
HistoryService.getDataRange: earliestData and latestData, either possibly
null. -/
structure ExistingRange where
  earliestData : Option Int
  latestData : Option Int
deriving Repr, DecidableEq

/-- Result of HistoryService.checkDataGaps as consumed by findGapsInRange:
the hasGaps flag and the missing ranges (start, end) in epoch
milliseconds. -/
structure GapCheckResult where
  hasGaps : Bool
  missingRanges : List (Int × Int)
deriving Repr, DecidableEq

/-- Embedding of the JavaScript disjunction dateValue || fallback applied to
an optional Date converted with getTime(): null yields the fallback, and so
does the epoch instant 0, which is falsy as a number. -/
def jsGetTimeOr (o : Option Int) (fallback : Int) : Int :=
  match o with
  | some t => if t = 0 then fallback else t
  | none => fallback

/-- DownloadProcessor.findGapsInRange: an empty or inverted window yields no
gaps; otherwise the missing ranges reported by checkDataGaps are filtered to
those intersecting the window and clamped to it.  The checkDataGaps call
itself is a storage collaborator, passed in as gapCheck. -/
def findGapsInRange (gapCheck : GapCheckResult) (startTime endTime : Int) :
    List (Int × Int) :=
  if startTime ≥ endTime then []
  else if !gapCheck.hasGaps then []
  else
    (gapCheck.missingRanges.filter fun g =>
      decide (g.2 ≥ startTime) && decide (g.1 ≤ endTime)).map
      fun g => (max g.1 startTime, min g.2 endTime)

/-- Result of calculateDownloadRanges together with the single-sample
verification query it may have issued (its startTime and endTime; limit is
1). -/
structure RangesOutcome where
  ranges : List DownloadRange
  sampleQuery : Option (Int × Int)
deriving Repr, DecidableEq

/-- DownloadProcessor.calculateDownloadRanges.  The storage collaborators
appear as inputs: existingRange is the getDataRange result, gapCheck the
checkDataGaps result, sampleHasData tells whether the single-sample
getCandles verification query returned at least one row, and now is
Date.now().  Steps, following the source: full request on an empty extent;
a before range up to earliest minus one interval; interior gaps clamped to
the overlap of the request and the extent; an after range from latest plus
one interval; and, when the request lies inside the extent and no range was
produced, the verification query with its redownload fallback. -/
def calculateDownloadRanges (tf : Timeframe) (requestedStart requestedEnd : Int)
    (existingRange : Option ExistingRange) (gapCheck : GapCheckResult)
    (sampleHasData : Bool) (now : Int) : RangesOutcome :=
  match existingRange with
  | none =>
    { ranges := [⟨requestedStart, requestedEnd, .before, "full range (no existing data)"⟩]
      sampleQuery := none }
  | some ext =>
    if ext.earliestData = none ∧ ext.latestData = none then
      { ranges := [⟨requestedStart, requestedEnd, .before, "full range (no existing data)"⟩]
        sampleQuery := none }
    else
      let intervalMs := getIntervalInMs tf
      let beforeRanges : List DownloadRange :=
        match ext.earliestData with
        | some e =>
          if requestedStart < e then
            [⟨requestedStart, e - intervalMs, .before, "data before existing range"⟩]
          else []
        | none => []
      let overlapStart := max requestedStart (jsGetTimeOr ext.earliestData 0)
      let overlapEnd := min requestedEnd (jsGetTimeOr ext.latestData now)
      let gapRanges : List DownloadRange :=
        if overlapStart < overlapEnd ∧ ext.earliestData.isSome ∧ ext.latestData.isSome then
          (findGapsInRange gapCheck overlapStart overlapEnd).mapIdx
            fun i g => ⟨g.1, g.2, .gap, "gap " ++ toString (i + 1) ++ " in existing data"⟩
        else []
      let afterRanges : List DownloadRange :=
        match ext.latestData with
        | some l =>
          if requestedEnd > l then
            [⟨l + intervalMs, requestedEnd, .after, "data after existing range"⟩]
          else []
        | none => []
      let ranges := beforeRanges ++ gapRanges ++ afterRanges
      match ext.earliestData, ext.latestData with
      | some e, some l =>
        if requestedStart ≥ e ∧ requestedEnd ≤ l ∧ ranges = [] then
          if sampleHasData then
            { ranges := ranges
              sampleQuery := some (requestedStart, requestedStart + intervalMs) }
          else
            { ranges := [⟨requestedStart, requestedEnd, .gap,
                "verification failed - redownloading range"⟩]
              sampleQuery := some (requestedStart, requestedStart + intervalMs) }
        else { ranges := ranges, sampleQuery := none }
      | _, _ => { ranges := ranges, sampleQuery := none }

/-! ## HistoryService: batched idempotent persister and metadata updater -/

/-- Candle document as prepared by processSingleBatch from a kline. -/
structure CandleRec where
  symbol : String
  timeframe : Timeframe
  openTime : Int
  closeTime : Int
  open_ : String
  high : String
  low : String
  close : String
  volume : String
  trades : Int
  takerBuyBaseVolume : String
  takerBuyQuoteVolume : String
deriving Repr, DecidableEq

/-- Mapping of a kline to a candle document (processSingleBatch). -/
def toCandle (symbol : String) (tf : Timeframe) (k : Kline) : CandleRec :=
  { symbol := symbol
    timeframe := tf
    openTime := k.openTime
    closeTime := k.closeTime
    open_ := k.open_
    high := k.high
    low := k.low
    close := k.close
    volume := k.volume
    trades := k.numberOfTrades
    takerBuyBaseVolume := k.takerBuyBaseAssetVolume
    takerBuyQuoteVolume := k.takerBuyQuoteAssetVolume }

/-- Unique key of the candle collection: (symbol, timeframe, openTime). -/
abbrev CandleKey := String × Timeframe × Int

/-- Key of a candle document. -/
def candleKey (c : CandleRec) : CandleKey := (c.symbol, c.timeframe, c.openTime)

/-- Candle storage, embedded as the list of stored documents. -/
abbrev CandleStore := List CandleRec

/-- Membership of a key in the store. -/
def containsKey (store : CandleStore) (k : CandleKey) : Bool :=
  store.any fun c => decide (candleKey c = k)

/-- One updateOne upsert of the bulk operation, at the interface specified
for the storage collaborator: when the key exists the matched document has
its fields overwritten in place, otherwise a new document is created.  The
boolean reports whether the document was newly created (an upsert in the
result accounting) rather than modified. -/
def upsertOne (store : CandleStore) (c : CandleRec) : CandleStore × Bool :=
  if containsKey store (candleKey c) then
    (store.map fun r => if candleKey r = candleKey c then c else r, false)
  else
    (store ++ [c], true)

/-- Model of candleModel.bulkWrite over a list of upsert operations:
returns the store afterwards, the upsertedCount and the modifiedCount. -/
def bulkWrite : CandleStore → List CandleRec → CandleStore × Nat × Nat
  | store, [] => (store, 0, 0)
  | store, c :: cs =>
    let s1 := upsertOne store c
    let rest := bulkWrite s1.1 cs
    (rest.1, (if s1.2 then rest.2.1 + 1 else rest.2.1),
      (if s1.2 then rest.2.2 else rest.2.2 + 1))

/-- Accounting result of saveCandles and of one batch (BatchResult in the
source). -/
structure BatchResult where
  newRecords : Nat
  updatedRecords : Nat
  totalProcessed : Nat
deriving Repr, DecidableEq

/-- HistoryService.processSingleBatch: maps the klines of one batch to
candle documents and executes them as one unordered bulk upsert;
newRecords is the upsertedCount and updatedRecords the modifiedCount. -/
def processSingleBatch (symbol : String) (tf : Timeframe) (store : CandleStore)
    (batch : List Kline) : CandleStore × BatchResult :=
  let w := bulkWrite store (batch.map (toCandle symbol tf))
  (w.1, { newRecords := w.2.1, updatedRecords := w.2.2, totalProcessed := w.2.1 + w.2.2 })

/-- Batch size of the persister (BATCH_SIZE in HistoryService). -/
def BATCH_SIZE : Nat := 5000

/-- Chunking performed by the batch loop of saveCandles through
klines.slice(startIndex, endIndex): consecutive chunks of at most n
elements. -/
def chunksOf {α : Type} (n : Nat) : List α → List (List α)
  | [] => []
  | x :: xs => (x :: xs.take (n - 1)) :: chunksOf n (xs.drop (n - 1))
termination_by l => l.length
decreasing_by
  simp only [List.length_drop, List.length_cons]
  omega

/-- Batch loop of saveCandles: each batch goes through
processBatchWithRetry; the embedded storage model cannot fail, so each
batch succeeds on its first attempt and the per-batch results are
accumulated. -/
def saveCandlesGo (symbolUpper : String) (tf : Timeframe) :
    CandleStore → List (List Kline) → CandleStore × BatchResult
  | store, [] => (store, ⟨0, 0, 0⟩)
  | store, batch :: rest =>
    let r1 := processSingleBatch symbolUpper tf store batch
    let r2 := saveCandlesGo symbolUpper tf r1.1 rest
    (r2.1,
      ⟨r1.2.newRecords + r2.2.newRecords,
        r1.2.updatedRecords + r2.2.updatedRecords,
        r1.2.totalProcessed + r2.2.totalProcessed⟩)

/-- HistoryService.saveCandles (the batched variant): an empty input returns
the zero accounting at once; otherwise the symbol is upper-cased and the
klines are processed in chunks of BATCH_SIZE. -/
def saveCandles (symbol : String) (tf : Timeframe) (store : CandleStore)
    (klines : List Kline) : CandleStore × BatchResult :=
  if klines = [] then (store, ⟨0, 0, 0⟩)
  else saveCandlesGo symbol.toUpper tf store (chunksOf BATCH_SIZE klines)

/-! ### updateSymbolMetadata -/

/-- Storage write performed on the symbol document by the metadata updater:
the incremental findOneAndUpdate, the full-recalculation write, or the reset
write used when the aggregation finds no candles. -/
inductive MetaWrite where
  | incremental (newCandlesCount : Nat) (earliest latest : Option Int)
  | recalculated (earliest latest : Int) (totalCandles : Nat)
  | resetEmpty
deriving Repr, DecidableEq

/-- Storage collaborators of updateSymbolMetadata, each of which may fail:
the two indexed findOne boundary queries, the aggregation of
recalculateSymbolMetadata (none embeds an empty stats array), and the
symbol-document write. -/
structure MetaOps where
  earliestOpenTime : Except String (Option Int)
  latestOpenTime : Except String (Option Int)
  aggregateStats : Except String (Option (Int × Int × Nat))
  writeOutcome : MetaWrite → Except String Unit

/-- HistoryService.recalculateSymbolMetadata: aggregate, then either reset
the timeframe metadata (no candles) or write the recalculated extent. -/
def recalculateSymbolMetadata (ops : MetaOps) : Except String MetaWrite := do
  let stats ← ops.aggregateStats
  match stats with
  | none => do
    _ ← ops.writeOutcome .resetEmpty
    pure .resetEmpty
  | some (e, l, n) => do
    _ ← ops.writeOutcome (.recalculated e l n)
    pure (.recalculated e l n)

/-- Body of the try block of updateSymbolMetadata: full recalculation for
more than 10000 new candles, otherwise the two boundary queries followed by
the incremental findOneAndUpdate. -/
def updateSymbolMetadataTry (newCandlesCount : Nat) (ops : MetaOps) :
    Except String MetaWrite := do
  if newCandlesCount > 10000 then
    recalculateSymbolMetadata ops
  else
    let e ← ops.earliestOpenTime
    let l ← ops.latestOpenTime
    let w := MetaWrite.incremental newCandlesCount e l
    _ ← ops.writeOutcome w
    pure w

/-- Caller-visible outcome of updateSymbolMetadata: the symbol-document
writes that completed and the error message the catch block swallowed, if
any. -/
structure MetaOutcome where
  writes : List MetaWrite
  swallowedError : Option String
deriving Repr, DecidableEq

/-- HistoryService.updateSymbolMetadata (the batched variant, taking the
new-candles count): returns at once with no storage operation when the count
is 0; otherwise runs the try body and swallows any error it throws, logging
only. -/
def updateSymbolMetadata (newCandlesCount : Nat) (ops : MetaOps) :
    Except String MetaOutcome :=
  if newCandlesCount = 0 then .ok ⟨[], none⟩
  else
    match updateSymbolMetadataTry newCandlesCount ops with
    | .ok w => .ok ⟨[w], none⟩
    | .error msg => .ok ⟨[], some msg⟩

/-- Tail of the success path of handleDownload after saveCandles returned:
updateSymbolMetadata runs with the newRecords count, then the job is marked
COMPLETED; an error escaping updateSymbolMetadata would instead reach the
catch block and mark the job FAILED. -/
def postSaveFinalize (job : DownloadJob) (saveResult : BatchResult) (ops : MetaOps)
    (allKlinesCount : Int) (now : Int) : DownloadJob :=
  match updateSymbolMetadata saveResult.newRecords ops with
  | .ok _ => markJobAsCompleted job allKlinesCount now
  | .error e => markJobAsFailed job e now

/-! ## Wired-in download processor (download.processor.ts): inline subranges
and the emitted progress-event trace -/

/-- Inline subrange computation of the active handleDownload
(download.processor.ts): a leading subrange up to existingStart minus one
millisecond (or the whole window when there is no existing start), and a
trailing subrange from existingEnd plus one millisecond (or from
requestedStart when there is no existing end) up to requestedEnd. -/
def subrangesOf (existingStart existingEnd : Option Int)
    (requestedStart requestedEnd : Int) : List (Int × Int) :=
  (match existingStart with
    | none => [(requestedStart, requestedEnd)]
    | some e => if requestedStart < e then [(requestedStart, e - 1)] else []) ++
  (match existingEnd with
    | none => [(requestedStart, requestedEnd)]
    | some l => if requestedEnd > l then [(l + 1, requestedEnd)] else [])

/-- Progress event emitted over the websocket gateway for a job: the status
field of the payload and its progress value when the payload carries one
(the job-failed payload does not). -/
structure JobEvent where
  status : JobStatus
  progress : Option Int
deriving Repr, DecidableEq

/-- Per-range loop of the active handleDownload: for each subrange it emits
the accumulated progress, maps every fetch callback percentage p to
accumulatedProgress + p * rangeWeight / 100, emits the save notification at
accumulatedProgress + rangeWeight * 0.95 when candles arrived, and advances
accumulatedProgress by rangeWeight.  A fetch error aborts the loop into the
job-failed emission; storage writes are modelled as succeeding. -/
def handleDownloadRangesGo (getKlinesAt : Int → Except JsError (List Kline))
    (tf : Timeframe) (totalRange : ℚ) (fuel : Nat) :
    List (Int × Int) → ℚ → List JobEvent
  | [], _ => [⟨.completed, some 100⟩]
  | (from_, to_) :: rest, accumulatedProgress =>
    let rangeWeight : ℚ := ((to_ - from_ : Int) : ℚ) / totalRange * 100
    let startEv : JobEvent := ⟨.running, some (jsRound accumulatedProgress)⟩
    let fr := getHistoricalData getKlinesAt tf from_ to_ fuel
    let innerEvs := fr.2.map fun ev =>
      (⟨.running,
        some (jsRound (accumulatedProgress + (ev.progress : ℚ) * rangeWeight / 100))⟩ : JobEvent)
    match fr.1 with
    | .err _ => startEv :: innerEvs ++ [⟨.failed, none⟩]
    | .fuelExhausted _ => startEv :: innerEvs
    | .ok klines =>
      let saveEvs : List JobEvent :=
        if klines.length > 0 then
          [⟨.running, some (jsRound (accumulatedProgress + rangeWeight * (95 / 100)))⟩]
        else []
      startEv :: (innerEvs ++ saveEvs ++
        handleDownloadRangesGo getKlinesAt tf totalRange fuel rest
          (accumulatedProgress + rangeWeight))

/-- Event trace of the active handleDownload: the initial running emission
at progress 0, then the per-range loop over the inline subranges, ending in
the completed emission at progress 100 (or the failed emission).  With no
subrange the job completes at once at progress 100. -/
def handleDownloadTrace (getKlinesAt : Int → Except JsError (List Kline)) (tf : Timeframe)
    (requestedStart requestedEnd : Int) (extent : Option ExistingRange) (fuel : Nat) :
    List JobEvent :=
  let initEv : JobEvent := ⟨.running, some 0⟩
  let existingStart := match extent with | some x => x.earliestData | none => none
  let existingEnd := match extent with | some x => x.latestData | none => none
  let subranges := subrangesOf existingStart existingEnd requestedStart requestedEnd
  if subranges = [] then [initEv, ⟨.completed, some 100⟩]
  else
    let totalRange : ℚ := ((requestedEnd - requestedStart : Int) : ℚ)
    initEv :: handleDownloadRangesGo getKlinesAt tf totalRange fuel subranges 0

/-- Boolean test that a list of integers is nondecreasing. -/
def nondecreasingInt : List Int → Bool
  | [] => true
  | [_] => true
  | a :: b :: t => decide (a ≤ b) && nondecreasingInt (b :: t)

/-- Progress values carried by the events preceding the first terminal
event of a trace. -/
def progressEventsBeforeTerminal (evs : List JobEvent) : List Int :=
  (evs.takeWhile fun ev => !ev.status.isTerminal).filterMap fun ev => ev.progress

/-- Formalization of claim C9 on one trace: the emitted progress values
before the terminal event are nondecreasing and all lie in the interval
from 0 to 100. -/
def progressClaimHolds (evs : List JobEvent) : Bool :=
  nondecreasingInt (progressEventsBeforeTerminal evs) &&
  (progressEventsBeforeTerminal evs).all fun p => decide (0 ≤ p) && decide (p ≤ 100)

/-! ## Claims about the GapAnalyzer -/

/-- Claim C1: for every download job whose (symbol, timeframe) has no
existing stored data (getDataRange returned null, or an extent whose
earliestData and latestData are both null), calculateDownloadRanges returns
exactly one download range, equal to the full requested window, with the
before-existing origin. -/
theorem calculateDownloadRanges_empty_extent (tf : Timeframe)
    (requestedStart requestedEnd : Int) (existingRange : Option ExistingRange)
    (gapCheck : GapCheckResult) (sampleHasData : Bool) (now : Int)
    (hempty : existingRange = none ∨ existingRange = some ⟨none, none⟩) :
    (calculateDownloadRanges tf requestedStart requestedEnd existingRange gapCheck
        sampleHasData now).ranges =
      [⟨requestedStart, requestedEnd, RangeType.before, "full range (no existing data)"⟩] := by
  rcases hempty with h | h <;> subst h <;> simp [calculateDownloadRanges]

/-- Witness for C1: a concrete job over an absent extent. -/
theorem calculateDownloadRanges_empty_extent_witness :
    (calculateDownloadRanges Timeframe.fiveMin 0 1000000 none ⟨false, []⟩ true 0).ranges =
      [⟨0, 1000000, RangeType.before, "full range (no existing data)"⟩] :=
  calculateDownloadRanges_empty_extent Timeframe.fiveMin 0 1000000 none ⟨false, []⟩ true 0
    (Or.inl rfl)

/-- Claim C2: when the requested window strictly contains the existing
extent on both sides and the gap check reports no interior gaps,
calculateDownloadRanges returns exactly two ranges, from requestedStart to
existingEarliest minus one interval and from existingLatest plus one
interval to requestedEnd; the two ranges do not overlap each other (the
first ends before the second starts) and do not overlap the stored extent
(the first ends strictly before existingEarliest, the second starts strictly
after existingLatest). -/
theorem calculateDownloadRanges_straddling_extent (tf : Timeframe)
    (requestedStart requestedEnd e l : Int) (gapCheck : GapCheckResult)
    (sampleHasData : Bool) (now : Int)
    (h1 : requestedStart < e) (h2 : l < requestedEnd) (h3 : e ≤ l)
    (hgaps : gapCheck.hasGaps = false) :
    (calculateDownloadRanges tf requestedStart requestedEnd (some ⟨some e, some l⟩) gapCheck
        sampleHasData now).ranges =
      [⟨requestedStart, e - getIntervalInMs tf, RangeType.before, "data before existing range"⟩,
        ⟨l + getIntervalInMs tf, requestedEnd, RangeType.after, "data after existing range"⟩] ∧
    e - getIntervalInMs tf < e ∧
    l < l + getIntervalInMs tf ∧
    e - getIntervalInMs tf < l + getIntervalInMs tf := by
  have hpos := getIntervalInMs_pos tf
  refine ⟨?_, by omega, by omega, by omega⟩
  simp only [calculateDownloadRanges, findGapsInRange, hgaps]
  simp [h1, h2, not_le.mpr h1, le_of_lt h2]

/-- Witness for C2: extent covering days 2 to 5 at the one-hour timeframe,
request covering days 0 to 10 (in epoch milliseconds). -/
theorem calculateDownloadRanges_straddling_extent_witness :
    (calculateDownloadRanges Timeframe.oneHour 0 864000000
        (some ⟨some 172800000, some 432000000⟩) ⟨false, []⟩ true 0).ranges =
      [⟨0, 172800000 - getIntervalInMs Timeframe.oneHour, RangeType.before,
          "data before existing range"⟩,
        ⟨432000000 + getIntervalInMs Timeframe.oneHour, 864000000, RangeType.after,
          "data after existing range"⟩] ∧
    172800000 - getIntervalInMs Timeframe.oneHour < 172800000 ∧
    (432000000 : Int) < 432000000 + getIntervalInMs Timeframe.oneHour ∧
    172800000 - getIntervalInMs Timeframe.oneHour < 432000000 + getIntervalInMs Timeframe.oneHour :=
  calculateDownloadRanges_straddling_extent Timeframe.oneHour 0 864000000 172800000 432000000
    ⟨false, []⟩ true 0 (by decide) (by decide) (by decide) rfl

/-- Claim C8: when the request lies inside the existing extent and steps 2
through 4 produced no ranges (here: the clamped interior-gap list is empty),
calculateDownloadRanges issues exactly one single-sample verification query
at requestedStart (window of one interval, limit 1); if the sample is absent
it returns exactly one verification-redownload range covering the whole
request, and if the sample is present it returns zero ranges. -/
theorem calculateDownloadRanges_verification (tf : Timeframe)
    (requestedStart requestedEnd e l : Int) (gapCheck : GapCheckResult)
    (sampleHasData : Bool) (now : Int)
    (h1 : e ≤ requestedStart) (h2 : requestedEnd ≤ l)
    (hgaps : findGapsInRange gapCheck (max requestedStart (jsGetTimeOr (some e) 0))
      (min requestedEnd (jsGetTimeOr (some l) now)) = []) :
    (calculateDownloadRanges tf requestedStart requestedEnd (some ⟨some e, some l⟩) gapCheck
        sampleHasData now).sampleQuery =
      some (requestedStart, requestedStart + getIntervalInMs tf) ∧
    (calculateDownloadRanges tf requestedStart requestedEnd (some ⟨some e, some l⟩) gapCheck
        sampleHasData now).ranges =
      (if sampleHasData then []
        else [⟨requestedStart, requestedEnd, RangeType.gap,
          "verification failed - redownloading range"⟩]) ∧
    (DownloadRange.origin ⟨requestedStart, requestedEnd, RangeType.gap,
      "verification failed - redownloading range"⟩ = GapOrigin.verificationRedownload) := by
  refine ⟨?_, ?_, rfl⟩ <;>
  · simp only [calculateDownloadRanges, hgaps]
    simp [not_lt.mpr h1, not_lt.mpr h2, h1, h2]
    cases sampleHasData <;> simp

/-- Witness for C8: a concrete fully-covered request whose verification
sample is absent. -/
theorem calculateDownloadRanges_verification_witness :
    (calculateDownloadRanges Timeframe.fiveMin 2000 5000 (some ⟨some 1000, some 1000000⟩)
        ⟨false, []⟩ false 0).sampleQuery =
      some (2000, 2000 + getIntervalInMs Timeframe.fiveMin) ∧
    (calculateDownloadRanges Timeframe.fiveMin 2000 5000 (some ⟨some 1000, some 1000000⟩)
        ⟨false, []⟩ false 0).ranges =
      (if false then []
        else [⟨2000, 5000, RangeType.gap, "verification failed - redownloading range"⟩]) ∧
    (DownloadRange.origin ⟨2000, 5000, RangeType.gap,
      "verification failed - redownloading range"⟩ = GapOrigin.verificationRedownload) :=
  calculateDownloadRanges_verification Timeframe.fiveMin 2000 5000 1000 1000000 ⟨false, []⟩
    false 0 (by decide) (by decide) rfl

/-! ## Claims about the job state machine -/

/-- Concrete CANCELLED job used to exhibit the missing terminal-state guard. -/
def cancelledJob : DownloadJob :=
  { symbol := "BTCUSDT"
    timeframe := Timeframe.oneHour
    startDate := 0
    endDate := 1000000
    status := JobStatus.cancelled
    progress := 40
    processedCandles := 7
    totalCandles := 0
    startedAt := some 1
    completedAt := none
    error := none
    lastProgressUpdate := some 2 }

/-- Claim C3 counterexample: the status machine does admit a transition out
of a terminal state.  markJobAsStarted applied to a CANCELLED job overwrites
its status with RUNNING, because the findByIdAndUpdate carries no status
guard; likewise cancelJob moves a FAILED job to CANCELLED, since its only
guard rejects COMPLETED jobs. -/
theorem terminal_status_not_preserved :
    JobStatus.isTerminal cancelledJob.status = true ∧
    (markJobAsStarted cancelledJob 50).status = JobStatus.running ∧
    JobStatus.running ≠ JobStatus.cancelled ∧
    cancelJob { cancelledJob with status := JobStatus.failed } =
      Except.ok { cancelledJob with status := JobStatus.cancelled } := by
  refine ⟨rfl, rfl, by decide, rfl⟩

/-- Claim C3 as amended: only two of the five operations respect terminal
states.  updateJobProgress never changes any status, and cancelJob rejects a
COMPLETED job (it throws and the record keeps its status); but
markJobAsStarted, markJobAsFailed and markJobAsCompleted overwrite the
status of a job in any state, and cancelJob moves a FAILED or CANCELLED job
to CANCELLED, so finality of terminal states is not enforced by these
operations. -/
theorem job_status_operations_spec :
    (∀ (j : DownloadJob) (p c now : Int), (updateJobProgress j p c now).status = j.status) ∧
    (∀ j : DownloadJob, j.status = JobStatus.completed →
      cancelJob j = Except.error "Cannot cancel completed job") ∧
    (∀ j : DownloadJob, j.status ≠ JobStatus.completed →
      cancelJob j = Except.ok { j with status := JobStatus.cancelled }) ∧
    (∀ (j : DownloadJob) (now : Int), (markJobAsStarted j now).status = JobStatus.running) ∧
    (∀ (j : DownloadJob) (e : String) (now : Int),
      (markJobAsFailed j e now).status = JobStatus.failed) ∧
    (∀ (j : DownloadJob) (n now : Int),
      (markJobAsCompleted j n now).status = JobStatus.completed) := by
  refine ⟨fun j p c now => rfl, fun j h => by simp [cancelJob, h],
    fun j h => by simp [cancelJob, h], fun j now => rfl, fun j e now => rfl,
    fun j n now => rfl⟩

/-- Witness for the amended C3, at concrete jobs. -/
theorem job_status_operations_spec_witness :
    (updateJobProgress cancelledJob 55 9 60).status = cancelledJob.status ∧
    cancelJob { cancelledJob with status := JobStatus.completed } =
      Except.error "Cannot cancel completed job" ∧
    cancelJob { cancelledJob with status := JobStatus.running } =
      Except.ok { cancelledJob with status := JobStatus.cancelled } :=
  ⟨job_status_operations_spec.1 cancelledJob 55 9 60,
    job_status_operations_spec.2.1 { cancelledJob with status := JobStatus.completed } rfl,
    job_status_operations_spec.2.2.1 { cancelledJob with status := JobStatus.running }
      (by decide)⟩

/-! ## Claims about the weight tracker -/

/-- Claim C6 counterexample: reserve does not debit.  With a zero counter
and cost 1, checkWeightLimit returns a counter of 0, not 0 + 1: the tracked
counter is never increased by the reserved cost. -/
theorem reserve_does_not_debit :
    (checkWeightLimit defaultBinanceConfig ⟨0, 0⟩ 0 0 1).st.currentWeight = 0 ∧
    (0 : Int) ≠ 0 + 1 := by
  refine ⟨rfl, by decide⟩

/-- Claim C6 as amended: when the (window-reset adjusted) counter plus the
cost reaches the limit, the caller sleeps exactly the remainder of the
window and the counter is then reset to 0 with the window restarting at the
post-sleep clock; otherwise the state is left as adjusted.  The counter is
never debited by the cost: after every call it equals either the adjusted
counter or 0, and it is the response-header observer
(updateWeightFromHeaders) that overwrites it with the authoritative upstream
value. -/
theorem checkWeightLimit_spec (cfg : BinanceConfig) (st : WeightState) (now now2 c : Int) :
    ((resetIfWindowElapsed cfg st now).currentWeight + c ≥ cfg.weightLimit →
      checkWeightLimit cfg st now now2 c =
        ⟨⟨0, now2⟩,
          some (cfg.weightWindow - (now - (resetIfWindowElapsed cfg st now).weightResetTime))⟩) ∧
    ((resetIfWindowElapsed cfg st now).currentWeight + c < cfg.weightLimit →
      checkWeightLimit cfg st now now2 c = ⟨resetIfWindowElapsed cfg st now, none⟩) ∧
    ((checkWeightLimit cfg st now now2 c).st.currentWeight =
        (resetIfWindowElapsed cfg st now).currentWeight ∨
      (checkWeightLimit cfg st now now2 c).st.currentWeight = 0) ∧
    (∀ used nowH : Int, (updateWeightFromHeaders cfg st used nowH).currentWeight = used) := by
  unfold checkWeightLimit
  refine ⟨fun h => ?_, fun h => ?_, ?_, fun used nowH => rfl⟩
  · simp [h]
  · simp [not_le.mpr h]
  · simp only []
    split
    · exact Or.inr rfl
    · exact Or.inl rfl

/-- Witness for the amended C6: a counter of 5999 with cost 1 against the
default limit 6000 blocks for the full remaining window and resets; a
counter of 10 with cost 1 passes through unchanged. -/
theorem checkWeightLimit_spec_witness :
    checkWeightLimit defaultBinanceConfig ⟨5999, 0⟩ 0 77 1 = ⟨⟨0, 77⟩, some 60000⟩ ∧
    checkWeightLimit defaultBinanceConfig ⟨10, 0⟩ 0 77 1 = ⟨⟨10, 0⟩, none⟩ ∧
    (updateWeightFromHeaders defaultBinanceConfig ⟨10, 0⟩ 1234 5).currentWeight = 1234 :=
  ⟨(checkWeightLimit_spec defaultBinanceConfig ⟨5999, 0⟩ 0 77 1).1 (by decide),
    (checkWeightLimit_spec defaultBinanceConfig ⟨10, 0⟩ 0 77 1).2.1 (by decide),
    (checkWeightLimit_spec defaultBinanceConfig ⟨10, 0⟩ 0 77 1).2.2.2 1234 5⟩

/-! ## Claims about the metadata updater -/

/-- Helper: updateSymbolMetadata resolves normally for every count and every
behavior of its storage collaborators. -/
theorem updateSymbolMetadata_isOk (n : Nat) (ops : MetaOps) :
    (updateSymbolMetadata n ops).isOk = true := by
  unfold updateSymbolMetadata
  split
  · rfl
  · split <;> rfl

/-- Claim C10: a storage failure inside updateSymbolMetadata is caught and
never propagates (the call resolves normally for every collaborator
behavior); a call with a new-candles count of 0 returns at once without any
storage write; and consequently the post-save tail of handleDownload marks
the job COMPLETED whatever the metadata collaborators do, so an
extent-metadata failure alone can never mark a job FAILED. -/
theorem updateSymbolMetadata_error_containment (n : Nat) (ops : MetaOps)
    (job : DownloadJob) (saveResult : BatchResult) (allCount now : Int) :
    (updateSymbolMetadata n ops).isOk = true ∧
    (n = 0 → updateSymbolMetadata n ops = Except.ok ⟨[], none⟩) ∧
    (postSaveFinalize job saveResult ops allCount now).status = JobStatus.completed := by
  refine ⟨updateSymbolMetadata_isOk n ops, fun h => by simp [updateSymbolMetadata, h], ?_⟩
  unfold postSaveFinalize
  rcases hu : updateSymbolMetadata saveResult.newRecords ops with e | o
  · have := updateSymbolMetadata_isOk saveResult.newRecords ops
    rw [hu] at this
    cases this
  · rfl

/-- All-failing metadata collaborators: every storage operation throws. -/
def failingMetaOps : MetaOps :=
  { earliestOpenTime := Except.error "db down"
    latestOpenTime := Except.error "db down"
    aggregateStats := Except.error "db down"
    writeOutcome := fun _ => Except.error "db down" }

/-- Witness for C10: with every metadata storage operation failing, a call
with count 0 performs no write, calls with small and large counts resolve
normally, and the post-save tail still completes the job. -/
theorem updateSymbolMetadata_error_containment_witness :
    updateSymbolMetadata 0 failingMetaOps = Except.ok ⟨[], none⟩ ∧
    (updateSymbolMetadata 5 failingMetaOps).isOk = true ∧
    (updateSymbolMetadata 20000 failingMetaOps).isOk = true ∧
    (postSaveFinalize cancelledJob ⟨5, 2, 7⟩ failingMetaOps 7 9).status =
      JobStatus.completed :=
  ⟨(updateSymbolMetadata_error_containment 0 failingMetaOps cancelledJob ⟨5, 2, 7⟩ 7 9).2.1 rfl,
    (updateSymbolMetadata_error_containment 5 failingMetaOps cancelledJob ⟨5, 2, 7⟩ 7 9).1,
    (updateSymbolMetadata_error_containment 20000 failingMetaOps cancelledJob ⟨5, 2, 7⟩ 7 9).1,
    (updateSymbolMetadata_error_containment 5 failingMetaOps cancelledJob ⟨5, 2, 7⟩ 7 9).2.2⟩

/-! ## Claims about the retry policy and error propagation -/

/-- Raw axios error shape of an upstream HTTP 429 response, before the
response interceptor replaces it. -/
def axiosRateLimitError : JsError := { responseStatus := some 429, code := none, status := none }

/-- Raw Node connection-reset error shape. -/
def connResetError : JsError := { responseStatus := none, code := some "ECONNRESET", status := none }

/-- Raw axios error shape of an upstream HTTP 500 response. -/
def serverError : JsError := { responseStatus := some 500, code := none, status := none }

/-- Claim C5 counterexample: a rate-limited page request is not retried by
makeRequestWithRetry at all.  The response interceptor replaces the raw 429
with an HttpException whose response field is a plain string, so the
error.response?.status check of the retry loop reads undefined; the error
therefore falls into the rethrow-at-once class: one attempt, no backoff
sleep, immediate error — not the claimed retry with delay
base * 2 ^ attempt plus a window length. -/
theorem page_rate_limit_not_retried :
    interceptorTransform axiosRateLimitError = rateLimitHttpException ∧
    isRateLimitForRetry rateLimitHttpException = false ∧
    (makeRequestWithRetry (α := List Kline)
      (fun _ => ReqOutcome.fail rateLimitHttpException) 3 1000).delays = [] ∧
    (makeRequestWithRetry (α := List Kline)
      (fun _ => ReqOutcome.fail rateLimitHttpException) 3 1000).attemptsUsed = 1 ∧
    (makeRequestWithRetry (α := List Kline)
      (fun _ => ReqOutcome.fail rateLimitHttpException) 3 1000).result =
      Except.error rateLimitHttpException :=
  ⟨rfl, rfl, rfl, rfl, rfl⟩

/-- Helper: the attempt counter of the retry loop never exceeds the first
attempt number plus the remaining-attempt budget. -/
theorem makeRequestWithRetryGo_attempts_le {α : Type} (outcomes : Nat → ReqOutcome α)
    (baseDelay : Int) :
    ∀ (remaining attempt : Nat) (delays : List Int),
      (makeRequestWithRetryGo outcomes baseDelay attempt remaining delays).attemptsUsed ≤
        attempt + remaining
  | 0, attempt, delays => by
    unfold makeRequestWithRetryGo
    cases outcomes attempt <;> simp
  | remaining + 1, attempt, delays => by
    unfold makeRequestWithRetryGo
    cases outcomes attempt with
    | ok v => simp
    | fail e =>
      simp only []
      split
      · have := makeRequestWithRetryGo_attempts_le outcomes baseDelay remaining (attempt + 1)
          (delays ++ [retryDelayRateLimit baseDelay attempt])
        omega
      · split
        · have := makeRequestWithRetryGo_attempts_le outcomes baseDelay remaining (attempt + 1)
            (delays ++ [retryDelayNetwork baseDelay attempt])
          omega
        · simp

/-- Claim C5 as amended: makeRequestWithRetry classifies errors in exactly
three ways by inspecting error.response?.status and error.code — an error
whose response.status is 429 is retried after baseDelay * 2 ^ attempt plus
a fixed 60000 ms (one minute, equal to the weight window only at its
default configuration); an error whose code is ECONNRESET or ETIMEDOUT is
retried after baseDelay * 2 ^ attempt; any other error, including the
status-429 HttpException substituted by the response interceptor for every
actual rate-limited page request, is rethrown immediately — and the number
of attempts never exceeds 3. -/
theorem makeRequestWithRetry_classification {α : Type} (outcomes : Nat → ReqOutcome α)
    (baseDelay : Int) (attempt remaining : Nat) (delays : List Int) (e : JsError) :
    (outcomes attempt = .fail e → isRateLimitForRetry e = true →
      makeRequestWithRetryGo outcomes baseDelay attempt (remaining + 1) delays =
        makeRequestWithRetryGo outcomes baseDelay (attempt + 1) remaining
          (delays ++ [baseDelay * 2 ^ attempt + 60000])) ∧
    (outcomes attempt = .fail e → isRateLimitForRetry e = false →
      isTransientNetwork e = true →
      makeRequestWithRetryGo outcomes baseDelay attempt (remaining + 1) delays =
        makeRequestWithRetryGo outcomes baseDelay (attempt + 1) remaining
          (delays ++ [baseDelay * 2 ^ attempt])) ∧
    (outcomes attempt = .fail e → isRateLimitForRetry e = false →
      isTransientNetwork e = false →
      makeRequestWithRetryGo outcomes baseDelay attempt (remaining + 1) delays =
        ⟨.error e, delays, attempt⟩) ∧
    (outcomes attempt = .fail e →
      makeRequestWithRetryGo outcomes baseDelay attempt 0 delays =
        ⟨.error e, delays, attempt⟩) ∧
    (makeRequestWithRetry outcomes 3 baseDelay).attemptsUsed ≤ 3 ∧
    isRateLimitForRetry rateLimitHttpException = false := by
  refine ⟨fun ho hrl => ?_, fun ho hrl htn => ?_, fun ho hrl htn => ?_, fun ho => ?_, ?_, rfl⟩
  · conv_lhs => rw [makeRequestWithRetryGo, ho]
    simp [hrl, retryDelayRateLimit]
  · conv_lhs => rw [makeRequestWithRetryGo, ho]
    simp [hrl, htn, retryDelayNetwork]
  · conv_lhs => rw [makeRequestWithRetryGo, ho]
    simp [hrl, htn]
  · conv_lhs => rw [makeRequestWithRetryGo, ho]
  · have := makeRequestWithRetryGo_attempts_le outcomes baseDelay 2 1 []
    simpa [makeRequestWithRetry] using this

/-- Witness for the amended C5: the three classes at concrete errors, and
the attempt cap at a concrete oracle. -/
theorem makeRequestWithRetry_classification_witness :
    makeRequestWithRetryGo (α := List Kline) (fun _ => .fail axiosRateLimitError) 1000 1 2 [] =
      makeRequestWithRetryGo (fun _ => .fail axiosRateLimitError) 1000 2 1
        [1000 * 2 ^ 1 + 60000] ∧
    makeRequestWithRetryGo (α := List Kline) (fun _ => .fail connResetError) 1000 1 2 [] =
      makeRequestWithRetryGo (fun _ => .fail connResetError) 1000 2 1 [1000 * 2 ^ 1] ∧
    makeRequestWithRetryGo (α := List Kline) (fun _ => .fail serverError) 1000 1 2 [] =
      ⟨.error serverError, [], 1⟩ ∧
    makeRequestWithRetryGo (α := List Kline) (fun _ => .fail serverError) 1000 4 0 [] =
      ⟨.error serverError, [], 4⟩ ∧
    (makeRequestWithRetry (α := List Kline) (fun _ => .fail connResetError) 3 1000).attemptsUsed ≤ 3 :=
  ⟨(makeRequestWithRetry_classification (fun _ => .fail axiosRateLimitError) 1000 1 1 []
      axiosRateLimitError).1 rfl rfl,
    (makeRequestWithRetry_classification (fun _ => .fail connResetError) 1000 1 1 []
      connResetError).2.1 rfl rfl rfl,
    (makeRequestWithRetry_classification (fun _ => .fail serverError) 1000 1 1 []
      serverError).2.2.1 rfl rfl rfl,
    (makeRequestWithRetry_classification (fun _ => .fail serverError) 1000 4 0 []
      serverError).2.2.2.1 rfl,
    (makeRequestWithRetry_classification (fun _ => .fail connResetError) 1000 1 2 []
      connResetError).2.2.2.2.1⟩

/-- Constantly rate-limited page oracle: every getKlines call surfaces the
interceptor-produced 429 HttpException. -/
def always429 : Int → Except JsError (List Kline) := fun _ => .error rateLimitHttpException

/-- Claim C4 counterexample: a rate-limit error does not propagate out of
the fetch loop.  With every page request surfacing the 429 HttpException,
getHistoricalData is still spinning after 25 iterations (fuel exhaustion in
the embedding) instead of having propagated the error: the rate-limit error
is silently absorbed inside the loop, so it can never terminate the job as
FAILED. -/
theorem rate_limit_never_propagates :
    (getHistoricalData always429 Timeframe.fiveMin 0 1000000 25).1 =
      FetchFinal.fuelExhausted [] ∧
    (getHistoricalData always429 Timeframe.fiveMin 0 1000000 25).2 = [] ∧
    FetchFinal.fuelExhausted [] ≠ FetchFinal.err rateLimitHttpException := by
  refine ⟨rfl, rfl, by decide⟩

/-- Claim C4 as amended: transient network errors are retried locally and
exhausting their retries surfaces the last error to the caller; an error
whose status is not 429 propagates out of the fetch loop at once and drives
the per-range loop into the job-failed emission; but an error with status
429 — which is exactly what a rate-limited page request surfaces — is
caught inside the fetch loop and the same page is retried for every amount
of fuel, so it never propagates to the orchestrator. -/
theorem fetch_error_propagation (getKlinesAt : Int → Except JsError (List Kline))
    (tf : Timeframe) (totalRange : ℚ) (endTime est : Int) (e : JsError)
    (outcomes : Nat → ReqOutcome (List Kline)) (baseDelay : Int) (e1 e2 e3 : JsError) :
    (outcomes 1 = .fail e1 → outcomes 2 = .fail e2 → outcomes 3 = .fail e3 →
      isRateLimitForRetry e1 = false → isTransientNetwork e1 = true →
      isRateLimitForRetry e2 = false → isTransientNetwork e2 = true →
      (makeRequestWithRetry outcomes 3 baseDelay).result = .error e3) ∧
    (∀ (fuel : Nat) (cur : Int) (acc : List Kline), cur < endTime →
      getKlinesAt cur = .error e → ¬ e.status = some 429 →
      getHistoricalDataGo getKlinesAt endTime est (fuel + 1) cur acc = (.err e, [])) ∧
    (∀ (fuel : Nat) (cur : Int) (acc : List Kline), cur < endTime →
      (∀ t : Int, getKlinesAt t = .error e) → e.status = some 429 →
      getHistoricalDataGo getKlinesAt endTime est fuel cur acc = (.fuelExhausted acc, [])) ∧
    (∀ (from_ to_ : Int) (rest : List (Int × Int)) (acc : ℚ) (fuel : Nat),
      from_ < to_ → getKlinesAt from_ = .error e → ¬ e.status = some 429 →
      handleDownloadRangesGo getKlinesAt tf totalRange (fuel + 1) ((from_, to_) :: rest) acc =
        [⟨.running, some (jsRound acc)⟩, ⟨.failed, none⟩]) := by
  constructor
  · intro h1 h2 h3 hr1 ht1 hr2 ht2
    unfold makeRequestWithRetry makeRequestWithRetryGo
    rw [h1]
    simp only [hr1, ht1, Bool.false_eq_true, if_false, if_true]
    unfold makeRequestWithRetryGo
    rw [h2]
    simp only [hr2, ht2, Bool.false_eq_true, if_false, if_true]
    unfold makeRequestWithRetryGo
    rw [h3]
  constructor
  · intro fuel cur acc hcur hk h429
    unfold getHistoricalDataGo
    rw [if_pos hcur, hk]
    simp [h429]
  constructor
  · intro fuel
    induction fuel with
    | zero => intro cur acc hcur hk h429; rfl
    | succ n ih =>
      intro cur acc hcur hk h429
      unfold getHistoricalDataGo
      rw [if_pos hcur, hk cur]
      simp only [h429, if_true]
      exact ih cur acc hcur hk h429
  · intro from_ to_ rest acc fuel hlt hk h429
    unfold handleDownloadRangesGo
    simp only [getHistoricalData]
    rw [show getHistoricalDataGo getKlinesAt to_
        (jsCeil (((to_ - from_ : Int) : ℚ) / ((getIntervalInMs tf : Int) : ℚ))) (fuel + 1)
        from_ [] = (.err e, []) from ?_]
    · simp
    · unfold getHistoricalDataGo
      rw [if_pos hlt, hk]
      simp [h429]

/-- Witness for the amended C4: exhausted transient retries surface the
last connection-reset error; a server error propagates out of the fetch
loop at once and ends the trace in the job-failed event; the 429
HttpException is absorbed at a concrete fuel. -/
theorem fetch_error_propagation_witness :
    (makeRequestWithRetry (α := List Kline) (fun _ => .fail connResetError) 3 1000).result =
      Except.error connResetError ∧
    getHistoricalDataGo (fun _ => Except.error serverError) 100 1 5 0 [] =
      (FetchFinal.err serverError, []) ∧
    getHistoricalDataGo always429 100 1 7 0 [] = (FetchFinal.fuelExhausted [], []) ∧
    handleDownloadRangesGo (fun _ => Except.error serverError) Timeframe.fiveMin 100 5
        [(0, 100)] 0 =
      [⟨JobStatus.running, some (jsRound 0)⟩, ⟨JobStatus.failed, none⟩] :=
  ⟨(fetch_error_propagation (fun _ => Except.error serverError) Timeframe.fiveMin 100 100 1
      serverError (fun _ => .fail connResetError) 1000 connResetError connResetError
      connResetError).1 rfl rfl rfl rfl rfl rfl rfl,
    (fetch_error_propagation (fun _ => Except.error serverError) Timeframe.fiveMin 100 100 1
      serverError (fun _ => .fail connResetError) 1000 connResetError connResetError
      connResetError).2.1 4 0 [] (by decide) rfl (by decide),
    (fetch_error_propagation always429 Timeframe.fiveMin 100 100 1 rateLimitHttpException
      (fun _ => .fail connResetError) 1000 connResetError connResetError
      connResetError).2.2.1 7 0 [] (by decide) (fun _ => rfl) rfl,
    (fetch_error_propagation (fun _ => Except.error serverError) Timeframe.fiveMin 100 100 1
      serverError (fun _ => .fail connResetError) 1000 connResetError connResetError
      connResetError).2.2.2 0 100 [] 0 4 (by decide) rfl (by decide)⟩

/-! ## Claims about progress events -/

/-- Concrete kline with the two timestamps that matter to the fetch loop. -/
def wKline (o c : Int) : Kline :=
  { openTime := o
    open_ := "1"
    high := "1"
    low := "1"
    close := "1"
    volume := "1"
    closeTime := c
    quoteAssetVolume := "1"
    numberOfTrades := 0
    takerBuyBaseAssetVolume := "1"
    takerBuyQuoteAssetVolume := "1" }

/-- Page oracle of the C9 counterexample: the first page request returns the
two five-minute candles of the window, every later request returns an empty
page. -/
def cexOracle : Int → Except JsError (List Kline) := fun cur =>
  if cur = 1 then .ok [wKline 0 299999, wKline 300000 599999] else .ok []

/-- Claim C9 counterexample: the emitted progress sequence of a job is not
nondecreasing.  With stored data ending at the epoch instant and a request
of two five-minute candles plus one millisecond, the single subrange carries
weight 600000 / 600001 of the window; the fetch callback reaches 100 and is
emitted as round(100 * weight) = 100, after which the save notification is
emitted at round(weight * 0.95) = 95 — a decrease from 100 to 95 before the
terminal event. -/
theorem progress_monotonicity_violated :
    handleDownloadTrace cexOracle Timeframe.fiveMin 0 600001 (some ⟨some 0, some 0⟩) 10 =
      [⟨JobStatus.running, some 0⟩, ⟨JobStatus.running, some 0⟩,
        ⟨JobStatus.running, some 100⟩, ⟨JobStatus.running, some 95⟩,
        ⟨JobStatus.completed, some 100⟩] ∧
    progressClaimHolds
      (handleDownloadTrace cexOracle Timeframe.fiveMin 0 600001 (some ⟨some 0, some 0⟩) 10) =
      false := by
  have h : handleDownloadTrace cexOracle Timeframe.fiveMin 0 600001
      (some ⟨some 0, some 0⟩) 10 =
      [⟨JobStatus.running, some 0⟩, ⟨JobStatus.running, some 0⟩,
        ⟨JobStatus.running, some 100⟩, ⟨JobStatus.running, some 95⟩,
        ⟨JobStatus.completed, some 100⟩] := by
    norm_num [handleDownloadTrace, subrangesOf, handleDownloadRangesGo, getHistoricalData,
      getHistoricalDataGo, cexOracle, wKline, fetchProgressPct, jsRound, jsCeil,
      getIntervalInMs]
  refine ⟨h, by rw [h]; decide⟩

/-- Invariant of the fetch-loop event list: counts start at or above the
given lower bound, are nondecreasing along the list, and every progress
value is the rounded capped percentage of its count. -/
def eventsOK (est : Int) : Nat → List FetchEvent → Prop
  | _, [] => True
  | lo, ev :: rest =>
    lo ≤ ev.processedCandles ∧ ev.progress = fetchProgressPct est ev.processedCandles ∧
      eventsOK est ev.processedCandles rest

/-- Helper: every event list produced by the fetch loop satisfies eventsOK
with the length of the accumulator as lower bound. -/
theorem getHistoricalDataGo_eventsOK (oracle : Int → Except JsError (List Kline))
    (endT est : Int) :
    ∀ (fuel : Nat) (cur : Int) (acc : List Kline),
      eventsOK est acc.length (getHistoricalDataGo oracle endT est fuel cur acc).2 := by
  intro fuel
  induction fuel with
  | zero => intro cur acc; trivial
  | succ n ih =>
    intro cur acc
    unfold getHistoricalDataGo
    split
    · rcases ho : oracle cur with e | ks
      · simp only [ho]
        split
        · exact ih cur acc
        · trivial
      · rcases ks with _ | ⟨k, ks⟩
        · trivial
        · simp only [ho]
          refine ⟨by simp, rfl, ?_⟩
          have := ih (((k :: ks).getLast (by simp)).closeTime + 1) (acc ++ k :: ks)
          simpa using this
    · trivial

/-- Helper: the capped rounded percentage is monotone in the count when the
estimate is at least 1. -/
theorem fetchProgressPct_mono (est : Int) (hest : 1 ≤ est) {m n : Nat} (h : m ≤ n) :
    fetchProgressPct est m ≤ fetchProgressPct est n := by
  unfold fetchProgressPct jsRound
  apply Int.floor_le_floor
  have hq : (0 : ℚ) < (est : ℚ) := by exact_mod_cast lt_of_lt_of_le Int.zero_lt_one hest
  have hdiv : (m : ℚ) / (est : ℚ) ≤ (n : ℚ) / (est : ℚ) :=
    (div_le_div_iff_of_pos_right hq).mpr (by exact_mod_cast h)
  have := mul_le_mul_of_nonneg_right hdiv (by norm_num : (0 : ℚ) ≤ 100)
  exact add_le_add_right (min_le_min (le_refl 100) this) _

/-- Helper: the capped rounded percentage lies between 0 and 100 when the
estimate is at least 1. -/
theorem fetchProgressPct_bounds (est : Int) (hest : 1 ≤ est) (n : Nat) :
    0 ≤ fetchProgressPct est n ∧ fetchProgressPct est n ≤ 100 := by
  unfold fetchProgressPct jsRound
  have hq : (0 : ℚ) < (est : ℚ) := by exact_mod_cast lt_of_lt_of_le Int.zero_lt_one hest
  have hnn : (0 : ℚ) ≤ (n : ℚ) / (est : ℚ) * 100 := by positivity
  constructor
  · apply Int.le_floor.mpr
    have : (0 : ℚ) ≤ min 100 ((n : ℚ) / (est : ℚ) * 100) := le_min (by norm_num) hnn
    push_cast
    linarith
  · have hle : min 100 ((n : ℚ) / (est : ℚ) * 100) ≤ 100 := min_le_left _ _
    have : (⌊min 100 ((n : ℚ) / (est : ℚ) * 100) + 1 / 2⌋ : ℤ) ≤ ⌊(100 : ℚ) + 1 / 2⌋ :=
      Int.floor_le_floor (add_le_add_right hle _)
    have h100 : (⌊(100 : ℚ) + 1 / 2⌋ : ℤ) = 100 := by norm_num [Int.floor_eq_iff]
    omega

/-- Helper: a nondecreasing tail below its head extends to a nondecreasing
list. -/
theorem nondecreasingInt_cons (a : Int) (l : List Int) (h : nondecreasingInt l = true)
    (ha : ∀ b : Int, l.head? = some b → a ≤ b) : nondecreasingInt (a :: l) = true := by
  cases l with
  | nil => rfl
  | cons b t =>
    have hb := ha b rfl
    simp only [nondecreasingInt, Bool.and_eq_true, decide_eq_true_eq]
    exact ⟨hb, h⟩

/-- Helper: an eventsOK list has a nondecreasing progress sequence with all
values between 0 and 100. -/
theorem eventsOK_progress (est : Int) (hest : 1 ≤ est) :
    ∀ (evs : List FetchEvent) (lo : Nat), eventsOK est lo evs →
      nondecreasingInt (evs.map FetchEvent.progress) = true ∧
      evs.all (fun ev => decide (0 ≤ ev.progress) && decide (ev.progress ≤ 100)) = true := by
  intro evs
  induction evs with
  | nil => intro lo _; exact ⟨rfl, rfl⟩
  | cons ev rest ih =>
    intro lo hOK
    obtain ⟨hlo, hpct, hrest⟩ := hOK
    obtain ⟨ih1, ih2⟩ := ih ev.processedCandles hrest
    constructor
    · simp only [List.map_cons]
      apply nondecreasingInt_cons _ _ ih1
      intro b hb
      cases rest with
      | nil => simp at hb
      | cons ev2 rest2 =>
        simp only [List.map_cons, List.head?_cons, Option.some_inj] at hb
        subst hb
        obtain ⟨hlo2, hpct2, _⟩ := hrest
        rw [hpct, hpct2]
        exact fetchProgressPct_mono est hest hlo2
    · simp only [List.all_cons, Bool.and_eq_true, decide_eq_true_eq]
      obtain ⟨hb1, hb2⟩ := fetchProgressPct_bounds est hest ev.processedCandles
      refine ⟨⟨by rw [hpct]; exact hb1, by rw [hpct]; exact hb2⟩, ?_⟩
      exact ih2

/-- Helper: with the cursor at or past the end, the fetch loop emits no
events. -/
theorem getHistoricalDataGo_no_events (oracle : Int → Except JsError (List Kline))
    (endT est : Int) (fuel : Nat) (cur : Int) (acc : List Kline) (h : ¬ cur < endT) :
    (getHistoricalDataGo oracle endT est fuel cur acc).2 = [] := by
  cases fuel with
  | zero => rfl
  | succ n =>
    unfold getHistoricalDataGo
    rw [if_neg h]

/-- Claim C9 as amended: within a single call of getHistoricalData the
progress percentages passed to the progress callback are nondecreasing and
every value lies between 0 and 100; the job-level emitted sequence does not
satisfy this (see the counterexample), because the save-phase emission at
accumulatedProgress + rangeWeight * 0.95 can drop below a callback that
reached the full range weight. -/
theorem fetch_progress_monotone (getKlinesAt : Int → Except JsError (List Kline))
    (tf : Timeframe) (startTime endTime : Int) (fuel : Nat) :
    nondecreasingInt
      (((getHistoricalData getKlinesAt tf startTime endTime fuel).2).map
        FetchEvent.progress) = true ∧
    ((getHistoricalData getKlinesAt tf startTime endTime fuel).2).all
      (fun ev => decide (0 ≤ ev.progress) && decide (ev.progress ≤ 100)) = true := by
  by_cases hlt : startTime < endTime
  · have hest : 1 ≤ jsCeil (((endTime - startTime : Int) : ℚ) / ((getIntervalInMs tf : Int) : ℚ)) := by
      unfold jsCeil
      have hpos := getIntervalInMs_pos tf
      have h1 : (0 : ℚ) < ((endTime - startTime : Int) : ℚ) := by
        exact_mod_cast Int.sub_pos.mpr hlt
      have h2 : (0 : ℚ) < ((getIntervalInMs tf : Int) : ℚ) := by exact_mod_cast hpos
      have : (0 : ℚ) < ((endTime - startTime : Int) : ℚ) / ((getIntervalInMs tf : Int) : ℚ) :=
        div_pos h1 h2
      exact Int.ceil_pos.mpr this
    have hOK := getHistoricalDataGo_eventsOK getKlinesAt endTime
      (jsCeil (((endTime - startTime : Int) : ℚ) / ((getIntervalInMs tf : Int) : ℚ)))
      fuel startTime []
    exact eventsOK_progress _ hest _ _ hOK
  · have h0 := getHistoricalDataGo_no_events getKlinesAt endTime
      (jsCeil (((endTime - startTime : Int) : ℚ) / ((getIntervalInMs tf : Int) : ℚ)))
      fuel startTime [] hlt
    unfold getHistoricalData
    simp only [h0]
    exact ⟨rfl, rfl⟩

/-! ## Claims about the batched persister -/

/-- Helper: key membership as membership in the key image of the store. -/
theorem containsKey_iff (store : CandleStore) (k : CandleKey) :
    containsKey store k = true ↔ k ∈ store.map candleKey := by
  simp [containsKey, List.any_eq_true, List.mem_map]

/-- Helper: the new-document flag of an upsert is the negated key
membership. -/
theorem upsertOne_snd (store : CandleStore) (c : CandleRec) :
    (upsertOne store c).2 = !containsKey store (candleKey c) := by
  unfold upsertOne
  by_cases h : containsKey store (candleKey c) = true
  · rw [if_pos h, h]
    rfl
  · rw [if_neg h]
    simp only [Bool.not_eq_true] at h
    rw [h]
    rfl

/-- Helper: keys of the store after an upsert — unchanged on a match, the
new key appended otherwise. -/
theorem upsertOne_keys (store : CandleStore) (c : CandleRec) :
    (upsertOne store c).1.map candleKey =
      (if containsKey store (candleKey c) then store.map candleKey
        else store.map candleKey ++ [candleKey c]) := by
  unfold upsertOne
  by_cases h : containsKey store (candleKey c) = true
  · rw [if_pos h, if_pos h, List.map_map]
    apply List.map_congr_left
    intro r _
    by_cases hr : candleKey r = candleKey c
    · simp [Function.comp, hr]
    · simp [Function.comp, hr]
  · rw [if_neg h, if_neg h]
    simp

/-- Helper: key membership after an upsert. -/
theorem containsKey_upsertOne (store : CandleStore) (c : CandleRec) (k : CandleKey) :
    containsKey (upsertOne store c).1 k =
      (containsKey store k || decide (candleKey c = k)) := by
  apply Bool.eq_iff_iff.mpr
  rw [containsKey_iff, upsertOne_keys]
  by_cases h : containsKey store (candleKey c) = true
  · rw [if_pos h]
    simp only [Bool.or_eq_true, containsKey_iff, decide_eq_true_eq]
    constructor
    · exact Or.inl
    · rintro (hm | he)
      · exact hm
      · rw [← he]
        exact (containsKey_iff store (candleKey c)).mp h
  · rw [if_neg h]
    simp only [List.mem_append, List.mem_singleton, Bool.or_eq_true, containsKey_iff,
      decide_eq_true_eq]
    constructor
    · rintro (hm | he)
      · exact Or.inl hm
      · exact Or.inr he.symm
    · rintro (hm | he)
      · exact Or.inl hm
      · exact Or.inr he.symm

/-- Helper: an upsert preserves key distinctness of the store. -/
theorem upsertOne_keys_nodup (store : CandleStore) (c : CandleRec)
    (h : (store.map candleKey).Nodup) : ((upsertOne store c).1.map candleKey).Nodup := by
  rw [upsertOne_keys]
  by_cases hc : containsKey store (candleKey c) = true
  · rw [if_pos hc]; exact h
  · rw [if_neg hc]
    have : candleKey c ∉ store.map candleKey := fun hm => hc ((containsKey_iff _ _).mpr hm)
    simp [List.nodup_append, h, this]

/-- Helper: an upsert on an existing key replaces the matched document and
keeps the row count unchanged. -/
theorem upsertOne_replace (store : CandleStore) (c : CandleRec)
    (h : containsKey store (candleKey c) = true) :
    (upsertOne store c).1.length = store.length ∧ c ∈ (upsertOne store c).1 := by
  unfold upsertOne
  rw [if_pos h]
  refine ⟨List.length_map _ _, ?_⟩
  obtain ⟨r, hr, hkey⟩ := by
    simpa [containsKey, List.any_eq_true] using h
  exact List.mem_map.mpr ⟨r, hr, by simp [hkey]⟩

/-- Helper: key membership after a bulk write. -/
theorem bulkWrite_contains (cs : List CandleRec) :
    ∀ (store : CandleStore) (k : CandleKey),
      containsKey (bulkWrite store cs).1 k =
        (containsKey store k || decide (k ∈ cs.map candleKey)) := by
  induction cs with
  | nil => intro store k; simp [bulkWrite]
  | cons c cs ih =>
    intro store k
    show containsKey (bulkWrite (upsertOne store c).1 cs).1 k = _
    rw [ih, containsKey_upsertOne]
    apply Bool.eq_iff_iff.mpr
    simp only [Bool.or_eq_true, decide_eq_true_eq, List.map_cons, List.mem_cons]
    constructor
    · rintro ((hm | he) | hm)
      · exact Or.inl hm
      · exact Or.inr (Or.inl he.symm)
      · exact Or.inr (Or.inr hm)
    · rintro (hm | (he | hm))
      · exact Or.inl (Or.inl hm)
      · exact Or.inl (Or.inr he.symm)
      · exact Or.inr hm

/-- Helper: a bulk write preserves key distinctness of the store. -/
theorem bulkWrite_keys_nodup (cs : List CandleRec) :
    ∀ (store : CandleStore), (store.map candleKey).Nodup →
      ((bulkWrite store cs).1.map candleKey).Nodup := by
  induction cs with
  | nil => intro store h; exact h
  | cons c cs ih =>
    intro store h
    exact ih (upsertOne store c).1 (upsertOne_keys_nodup store c h)

/-- Helper: counts of a bulk write over operations with pairwise distinct
keys — the upsertedCount is the number of operations whose key is absent
from the initial store, the modifiedCount the number whose key is
present. -/
theorem bulkWrite_counts (cs : List CandleRec) :
    ∀ (store : CandleStore), (cs.map candleKey).Nodup →
      (bulkWrite store cs).2.1 = cs.countP (fun c => !containsKey store (candleKey c)) ∧
      (bulkWrite store cs).2.2 = cs.countP (fun c => containsKey store (candleKey c)) := by
  induction cs with
  | nil => intro store _; exact ⟨rfl, rfl⟩
  | cons c cs ih =>
    intro store hnd
    rw [List.map_cons, List.nodup_cons] at hnd
    obtain ⟨hni, hnd⟩ := hnd
    obtain ⟨ih1, ih2⟩ := ih (upsertOne store c).1 hnd
    have htrans : ∀ d ∈ cs,
        containsKey (upsertOne store c).1 (candleKey d) =
          containsKey store (candleKey d) := by
      intro d hd
      rw [containsKey_upsertOne]
      have : ¬ candleKey c = candleKey d := fun he =>
        hni (he ▸ List.mem_map.mpr ⟨d, hd, rfl⟩)
      simp [this]
    have hc1 : cs.countP (fun d => !containsKey (upsertOne store c).1 (candleKey d)) =
        cs.countP (fun d => !containsKey store (candleKey d)) :=
      List.countP_congr fun d hd => by rw [htrans d hd]
    have hc2 : cs.countP (fun d => containsKey (upsertOne store c).1 (candleKey d)) =
        cs.countP (fun d => containsKey store (candleKey d)) :=
      List.countP_congr fun d hd => by rw [htrans d hd]
    show ((if (upsertOne store c).2 then (bulkWrite (upsertOne store c).1 cs).2.1 + 1
        else (bulkWrite (upsertOne store c).1 cs).2.1) = _ ∧
      (if (upsertOne store c).2 then (bulkWrite (upsertOne store c).1 cs).2.2
        else (bulkWrite (upsertOne store c).1 cs).2.2 + 1) = _)
    rw [ih1, ih2, hc1, hc2, upsertOne_snd]
    by_cases h : containsKey store (candleKey c) = true
    · simp [List.countP_cons, h]
    · simp only [Bool.not_eq_true] at h
      simp [List.countP_cons, h]

/-- Helper: a bulk write over an appended operation list is the sequential
composition of the two bulk writes with added counts. -/
theorem bulkWrite_append (as bs : List CandleRec) :
    ∀ store : CandleStore,
      bulkWrite store (as ++ bs) =
        ((bulkWrite (bulkWrite store as).1 bs).1,
          (bulkWrite store as).2.1 + (bulkWrite (bulkWrite store as).1 bs).2.1,
          (bulkWrite store as).2.2 + (bulkWrite (bulkWrite store as).1 bs).2.2) := by
  induction as with
  | nil => intro store; simp [bulkWrite]
  | cons a as ih =>
    intro store
    simp only [List.cons_append]
    show (let s1 := upsertOne store a
      let rest := bulkWrite s1.1 (as ++ bs)
      ((rest.1, (if s1.2 then rest.2.1 + 1 else rest.2.1),
        (if s1.2 then rest.2.2 else rest.2.2 + 1)) : CandleStore × Nat × Nat)) = _
    simp only []
    rw [ih (upsertOne store a).1]
    show (_, _, _) = (_, _, _)
    refine congrArg₂ _ rfl (congrArg₂ _ ?_ ?_) <;>
    · show (if (upsertOne store a).2 then _ else _) = _
      by_cases hb : (upsertOne store a).2 <;> simp [bulkWrite, hb] <;> try omega

/-- Helper: the chunks produced by the batch loop concatenate back to the
input list. -/
theorem chunksOf_flatten {α : Type} (n : Nat) : ∀ l : List α, (chunksOf n l).flatten = l
  | [] => by simp [chunksOf]
  | x :: xs => by
    rw [chunksOf]
    simp only [List.flatten_cons]
    rw [chunksOf_flatten n (xs.drop (n - 1))]
    simp [List.take_append_drop]
termination_by l => l.length
decreasing_by
  simp only [List.length_drop, List.length_cons]
  omega

/-- Helper: the batch loop of saveCandles computes exactly the bulk write of
the concatenation of its chunks. -/
theorem saveCandlesGo_eq_bulkWrite (s : String) (tf : Timeframe) :
    ∀ (chunks : List (List Kline)) (store : CandleStore),
      saveCandlesGo s tf store chunks =
        ((bulkWrite store (chunks.flatten.map (toCandle s tf))).1,
          ⟨(bulkWrite store (chunks.flatten.map (toCandle s tf))).2.1,
            (bulkWrite store (chunks.flatten.map (toCandle s tf))).2.2,
            (bulkWrite store (chunks.flatten.map (toCandle s tf))).2.1 +
              (bulkWrite store (chunks.flatten.map (toCandle s tf))).2.2⟩) := by
  intro chunks
  induction chunks with
  | nil => intro store; simp [saveCandlesGo, bulkWrite]
  | cons batch rest ih =>
    intro store
    simp only [saveCandlesGo, List.flatten_cons, List.map_append]
    rw [bulkWrite_append]
    simp only [processSingleBatch, ih, Prod.mk.injEq, BatchResult.mk.injEq, true_and,
      and_true, eq_self_iff_true]
    omega

/-- Claim C7: for every save whose 15000 distinct-key candles split into
10000 keys absent from storage and 5000 keys already present, saveCandles
returns exactly 10000 newRecords and 5000 updatedRecords; the stored keys
stay pairwise distinct (no duplicate row is ever created), and an upsert on
an existing key replaces the matched document in place without changing the
row count. -/
theorem saveCandles_batch_accounting (symbol : String) (tf : Timeframe)
    (store : CandleStore) (klines : List Kline)
    (hnd : (klines.map fun k => candleKey (toCandle symbol.toUpper tf k)).Nodup)
    (hstore : (store.map candleKey).Nodup)
    (hnew : klines.countP
      (fun k => !containsKey store (candleKey (toCandle symbol.toUpper tf k))) = 10000)
    (hupd : klines.countP
      (fun k => containsKey store (candleKey (toCandle symbol.toUpper tf k))) = 5000) :
    (saveCandles symbol tf store klines).2.newRecords = 10000 ∧
    (saveCandles symbol tf store klines).2.updatedRecords = 5000 ∧
    ((saveCandles symbol tf store klines).1.map candleKey).Nodup ∧
    (∀ (st : CandleStore) (c : CandleRec), containsKey st (candleKey c) = true →
      (upsertOne st c).1.length = st.length ∧ c ∈ (upsertOne st c).1) := by
  have hne : klines ≠ [] := by
    intro h
    rw [h] at hnew
    simp at hnew
  unfold saveCandles
  rw [if_neg hne, saveCandlesGo_eq_bulkWrite, chunksOf_flatten]
  have hndc : ((klines.map (toCandle symbol.toUpper tf)).map candleKey).Nodup := by
    rw [List.map_map]
    exact hnd
  obtain ⟨h1, h2⟩ := bulkWrite_counts (klines.map (toCandle symbol.toUpper tf)) store hndc
  refine ⟨?_, ?_, bulkWrite_keys_nodup _ store hstore, fun st c h => upsertOne_replace st c h⟩
  · rw [show ((bulkWrite store (klines.map (toCandle symbol.toUpper tf))).1,
      (⟨(bulkWrite store (klines.map (toCandle symbol.toUpper tf))).2.1,
        (bulkWrite store (klines.map (toCandle symbol.toUpper tf))).2.2,
        (bulkWrite store (klines.map (toCandle symbol.toUpper tf))).2.1 +
          (bulkWrite store (klines.map (toCandle symbol.toUpper tf))).2.2⟩ :
        BatchResult)).2.newRecords =
      (bulkWrite store (klines.map (toCandle symbol.toUpper tf))).2.1 from rfl]
    rw [h1, List.countP_map]
    exact hnew
  · rw [show ((bulkWrite store (klines.map (toCandle symbol.toUpper tf))).1,
      (⟨(bulkWrite store (klines.map (toCandle symbol.toUpper tf))).2.1,
        (bulkWrite store (klines.map (toCandle symbol.toUpper tf))).2.2,
        (bulkWrite store (klines.map (toCandle symbol.toUpper tf))).2.1 +
          (bulkWrite store (klines.map (toCandle symbol.toUpper tf))).2.2⟩ :
        BatchResult)).2.updatedRecords =
      (bulkWrite store (klines.map (toCandle symbol.toUpper tf))).2.2 from rfl]
    rw [h2, List.countP_map]
    exact hupd

/-- Concrete candle document with the given open time, used by the C7
witness.  Its symbol field carries the upper-cased form that saveCandles
writes. -/
def witnessCandle (i : Int) : CandleRec :=
  { symbol := "BTCUSDT".toUpper
    timeframe := Timeframe.fiveMin
    openTime := i
    closeTime := i + 299999
    open_ := "1"
    high := "1"
    low := "1"
    close := "1"
    volume := "1"
    trades := 0
    takerBuyBaseVolume := "1"
    takerBuyQuoteVolume := "1" }

/-- Concrete kline with the given open time, used by the C7 witness. -/
def witnessKline (i : Int) : Kline :=
  { openTime := i
    open_ := "1"
    high := "1"
    low := "1"
    close := "1"
    volume := "1"
    closeTime := i + 299999
    quoteAssetVolume := "1"
    numberOfTrades := 0
    takerBuyBaseAssetVolume := "1"
    takerBuyQuoteAssetVolume := "1" }

/-- Witness store holding the 5000 candles with open times 0 to 4999. -/
def witnessStore : CandleStore := (List.range 5000).map fun i => witnessCandle (Int.ofNat i)

/-- Witness input of 15000 klines with open times 0 to 14999: the first
5000 keys already exist in witnessStore, the remaining 10000 are new. -/
def witnessKlines : List Kline := (List.range 15000).map fun i => witnessKline (Int.ofNat i)

/-- Helper: key membership in the witness store is exactly an open time
between 0 and 4999. -/
theorem witness_containsKey (i : Int) :
    containsKey witnessStore ("BTCUSDT".toUpper, Timeframe.fiveMin, i) =
      decide (0 ≤ i ∧ i < 5000) := by
  apply Bool.eq_iff_iff.mpr
  rw [containsKey_iff, decide_eq_true_eq]
  constructor
  · intro hm
    rw [List.mem_map] at hm
    obtain ⟨c, hc, hkey⟩ := hm
    rw [witnessStore, List.mem_map] at hc
    obtain ⟨j, hj, rfl⟩ := hc
    rw [List.mem_range] at hj
    have h2 : Int.ofNat j = i := congrArg (fun p => p.2.2) hkey
    rw [Int.ofNat_eq_coe] at h2
    omega
  · intro h
    rw [List.mem_map]
    refine ⟨witnessCandle i, ?_, rfl⟩
    rw [witnessStore, List.mem_map]
    refine ⟨i.toNat, ?_, ?_⟩
    · rw [List.mem_range]
      omega
    · show witnessCandle (Int.ofNat i.toNat) = witnessCandle i
      rw [Int.ofNat_eq_coe]
      congr 1
      omega

/-- Helper: the key of a converted witness kline. -/
theorem witnessKline_key (i : Int) :
    candleKey (toCandle "BTCUSDT".toUpper Timeframe.fiveMin (witnessKline i)) =
      ("BTCUSDT".toUpper, Timeframe.fiveMin, i) := rfl

/-- Helper: the witness klines map to pairwise distinct keys. -/
theorem witnessKlines_keys_nodup :
    (witnessKlines.map fun k =>
      candleKey (toCandle "BTCUSDT".toUpper Timeframe.fiveMin k)).Nodup := by
  rw [witnessKlines, List.map_map]
  have hinj : Function.Injective ((fun k =>
      candleKey (toCandle "BTCUSDT".toUpper Timeframe.fiveMin k)) ∘
      fun i : Nat => witnessKline (Int.ofNat i)) := by
    intro a b h
    have h2 : Int.ofNat a = Int.ofNat b := congrArg (fun p => p.2.2) h
    exact Int.ofNat.inj h2
  exact (List.nodup_range 15000).map hinj

/-- Helper: the witness store has pairwise distinct keys. -/
theorem witnessStore_keys_nodup : (witnessStore.map candleKey).Nodup := by
  rw [witnessStore, List.map_map]
  have hinj : Function.Injective (candleKey ∘ fun i : Nat => witnessCandle (Int.ofNat i)) := by
    intro a b h
    have h2 : Int.ofNat a = Int.ofNat b := congrArg (fun p => p.2.2) h
    exact Int.ofNat.inj h2
  exact (List.nodup_range 5000).map hinj

/-- Helper: exactly 10000 of the witness klines carry a key absent from the
witness store. -/
theorem witness_countP_new :
    witnessKlines.countP (fun k =>
      !containsKey witnessStore (candleKey (toCandle "BTCUSDT".toUpper Timeframe.fiveMin k))) =
      10000 := by
  rw [witnessKlines, List.countP_map]
  have hc : List.countP
      ((fun k => !containsKey witnessStore
        (candleKey (toCandle "BTCUSDT".toUpper Timeframe.fiveMin k))) ∘
        fun i : Nat => witnessKline (Int.ofNat i))
      (List.range 15000) =
      List.countP (fun i => decide (5000 ≤ i)) (List.range 15000) := by
    apply List.countP_congr
    intro x hx
    rw [List.mem_range] at hx
    simp only [Function.comp_apply]
    rw [witnessKline_key, witness_containsKey]
    simp only [Bool.not_eq_true', decide_eq_false_iff_not, decide_eq_true_eq, not_and, not_lt,
      Int.ofNat_eq_coe]
    omega
  rw [hc, show (15000 : Nat) = 5000 + 10000 from rfl, List.range_add, List.countP_append]
  have hz : List.countP (fun i => decide (5000 ≤ i)) (List.range 5000) = 0 :=
    List.countP_eq_zero.mpr fun a ha => by
      rw [List.mem_range] at ha
      simp
      omega
  have hf : List.countP (fun i => decide (5000 ≤ i))
      (List.map (fun x => 5000 + x) (List.range 10000)) = 10000 := by
    rw [List.countP_map]
    have := List.countP_eq_length
      (l := List.range 10000) (p := (fun i => decide (5000 ≤ i)) ∘ fun x => 5000 + x)
    rw [this.mpr fun a _ => by simp]
    simp
  omega

/-- Helper: exactly 5000 of the witness klines carry a key present in the
witness store. -/
theorem witness_countP_upd :
    witnessKlines.countP (fun k =>
      containsKey witnessStore (candleKey (toCandle "BTCUSDT".toUpper Timeframe.fiveMin k))) =
      5000 := by
  rw [witnessKlines, List.countP_map]
  have hc : List.countP
      ((fun k => containsKey witnessStore
        (candleKey (toCandle "BTCUSDT".toUpper Timeframe.fiveMin k))) ∘
        fun i : Nat => witnessKline (Int.ofNat i))
      (List.range 15000) =
      List.countP (fun i => decide (i < 5000)) (List.range 15000) := by
    apply List.countP_congr
    intro x hx
    rw [List.mem_range] at hx
    simp only [Function.comp_apply]
    rw [witnessKline_key, witness_containsKey]
    simp only [decide_eq_true_eq, Int.ofNat_eq_coe]
    omega
  rw [hc, show (15000 : Nat) = 5000 + 10000 from rfl, List.range_add, List.countP_append]
  have hz : List.countP (fun i => decide (i < 5000))
      (List.map (fun x => 5000 + x) (List.range 10000)) = 0 :=
    List.countP_eq_zero.mpr fun a ha => by
      rw [List.mem_map] at ha
      obtain ⟨x, _, rfl⟩ := ha
      simp
  have hf : List.countP (fun i => decide (i < 5000)) (List.range 5000) = 5000 := by
    have := List.countP_eq_length
      (l := List.range 5000) (p := fun i => decide (i < 5000))
    rw [this.mpr fun a ha => by
      rw [List.mem_range] at ha
      simpa using ha]
    simp
  omega

/-- Witness for C7: the concrete 10000-new plus 5000-existing save. -/
theorem saveCandles_batch_accounting_witness :
    (saveCandles "BTCUSDT" Timeframe.fiveMin witnessStore witnessKlines).2.newRecords = 10000 ∧
    (saveCandles "BTCUSDT" Timeframe.fiveMin witnessStore witnessKlines).2.updatedRecords =
      5000 ∧
    ((saveCandles "BTCUSDT" Timeframe.fiveMin witnessStore witnessKlines).1.map
      candleKey).Nodup :=
  ⟨(saveCandles_batch_accounting "BTCUSDT" Timeframe.fiveMin witnessStore witnessKlines
      witnessKlines_keys_nodup witnessStore_keys_nodup witness_countP_new witness_countP_upd).1,
    (saveCandles_batch_accounting "BTCUSDT" Timeframe.fiveMin witnessStore witnessKlines
      witnessKlines_keys_nodup witnessStore_keys_nodup witness_countP_new
      witness_countP_upd).2.1,
    (saveCandles_batch_accounting "BTCUSDT" Timeframe.fiveMin witnessStore witnessKlines
      witnessKlines_keys_nodup witnessStore_keys_nodup witness_countP_new
      witness_countP_upd).2.2.1⟩

end BinanceHistory
